import Mathlib

set_option autoImplicit false

/-! Formal model of the `notes` application's persistent collection core:
the note store (`src/notes.rs`), the todo store (`src/todos.rs`) and the
session-controller operations built on them (`src/app.rs`).

The filesystem state is the contents of the single `<home>/.notes`
directory, modelled as a finite association list from file names to file
contents; every entry models a regular file (the application never creates
subdirectories inside `.notes`, so the `is_file` check of `list_notes`
always passes for modelled entries).  The directory itself is assumed to
exist: `get_notes_dir` creates it on first access, an environmental effect
below the granularity of this model.

Serialization through `serde_json` is modelled at the level of the JSON
document tree: a file written by serde (the `.todos` snapshot) is stored
as the JSON value it serializes to, while a file written as raw text (a
note) is stored as its exact byte string.  serde_json's printer and parser
are mutually inverse on document trees, and the specification itself
allows whitespace and field order to vary, so this abstraction preserves
exactly the information the round-trip contract is about.  A `text` entry
read as the snapshot is treated as undecodable; in application-reachable
states the `.todos` file is only ever written by serde, so that case never
arises. -/

/-- JSON document trees: the serialized image of serde_json values.
Numbers are restricted to integers, which is all the `Todos` structure
(an `i64` timestamp) produces or consumes. -/
inductive Json where
  | null
  | num (n : Int)
  | str (s : String)
  | arr (elems : List Json)
  | obj (fields : List (String × Json))

mutual

/-- Compact rendering of a JSON tree to its byte string, mirroring
`serde_json::to_string` (string escaping elided; no theorem below depends
on the rendered bytes). -/
def Json.render : Json → String
  | .null => "null"
  | .num n => toString n
  | .str s => "\x22" ++ s ++ "\x22"
  | .arr es => "[" ++ Json.renderElems es ++ "]"
  | .obj fs => "\x7b" ++ Json.renderFields fs ++ "\x7d"

/-- Renders the comma-separated elements of a JSON array. -/
def Json.renderElems : List Json → String
  | [] => ""
  | [j] => Json.render j
  | j :: js => Json.render j ++ "," ++ Json.renderElems js

/-- Renders the comma-separated fields of a JSON object. -/
def Json.renderFields : List (String × Json) → String
  | [] => ""
  | [f] => "\x22" ++ f.1 ++ "\x22:" ++ Json.render f.2
  | f :: fs => "\x22" ++ f.1 ++ "\x22:" ++ Json.render f.2 ++ "," ++ Json.renderFields fs

end

/-- Looks up a field of a JSON object by name, first occurrence wins.
Objects produced by the encoder never repeat a field, and serde's derived
deserializer ignores fields it does not know, which this lookup-based
decoding reproduces. -/
def Json.lookupField (fields : List (String × Json)) (key : String) : Option Json :=
  (fields.find? (fun f => f.1 = key)).map Prod.snd

/-- One todo record: `struct Todo` of `src/todos.rs` (`description: String`,
`due_date: Option<i64>`). -/
structure Todo where
  description : String
  due_date : Option Int
deriving DecidableEq

/-- The todo store: `struct Todos` of `src/todos.rs`, a vector of records. -/
structure Todos where
  items : List Todo
deriving DecidableEq

/-- Mirrors `Todos::new` (and the derived `Todos::default`): an empty store. -/
def Todos.new : Todos := ⟨[]⟩

/-- Mirrors `Todos::add`: pushes a new record onto the end of `items`. -/
def Todos.add (t : Todos) (description : String) (due_date : Option Int) : Todos :=
  ⟨t.items ++ [{ description := description, due_date := due_date }]⟩

/-- Serialization of one record as derived by `#[derive(Serialize)]`:
an object with the fields in declaration order, `None` encoded as `null`. -/
def Todo.encode (t : Todo) : Json :=
  Json.obj [("description", Json.str t.description),
            ("due_date", match t.due_date with
                         | none => Json.null
                         | some d => Json.num d)]

/-- Serialization of the whole store as derived by `#[derive(Serialize)]`. -/
def Todos.encode (t : Todos) : Json :=
  Json.obj [("items", Json.arr (t.items.map Todo.encode))]

/-- Deserialization of one record as derived by `#[derive(Deserialize)]`:
`description` must be a string; `due_date` may be absent (serde decodes a
missing `Option` field as `None`), `null`, or an integer. -/
def Todo.decode (j : Json) : Option Todo :=
  match j with
  | .obj fields =>
    match Json.lookupField fields "description" with
    | some (.str s) =>
      match Json.lookupField fields "due_date" with
      | none => some { description := s, due_date := none }
      | some .null => some { description := s, due_date := none }
      | some (.num n) => some { description := s, due_date := some n }
      | some _ => none
    | _ => none
  | _ => none

/-- Deserialization of a JSON sequence element by element, failing as soon
as one element fails, as serde's derived `Vec` deserializer does. -/
def decodeTodoList : List Json → Option (List Todo)
  | [] => some []
  | j :: js =>
    match Todo.decode j with
    | some td =>
      match decodeTodoList js with
      | some tds => some (td :: tds)
      | none => none
    | none => none

/-- Deserialization of the whole store as derived by `#[derive(Deserialize)]`. -/
def Todos.decode (j : Json) : Option Todos :=
  match j with
  | .obj fields =>
    match Json.lookupField fields "items" with
    | some (.arr elems) =>
      match decodeTodoList elems with
      | some items => some ⟨items⟩
      | none => none
    | _ => none
  | _ => none

/-- The filesystem errors the model can produce: `NotFound` from opening or
removing an absent file, and a serde decode failure (`serde_json::Error`,
converted into `io::Error` by the `?` operator in `load_from_file`). -/
inductive IoErr where
  | notFound
  | decodeError
deriving DecidableEq

/-- Contents of one regular file inside `.notes`: raw text bytes for note
files, a serialized JSON document for the snapshot written by serde. -/
inductive FileData where
  | text (s : String)
  | json (j : Json)

/-- The `.notes` directory: file names (with extension) paired with file
contents.  Operations below preserve uniqueness of names, as a real
directory does. -/
abbrev Dir : Type := List (String × FileData)

/-- Mirrors `File::create` followed by `write_all`: truncates the existing
file of that name (directory entries are unique, so at most one matches)
or creates a new directory entry. -/
def Dir.write : Dir → String → FileData → Dir
  | [], name, d => [(name, d)]
  | e :: rest, name, d =>
    if e.1 = name then (name, d) :: rest else e :: Dir.write rest name d

/-- Mirrors `File::open` plus `read_to_string`: the contents of the named
file, or `none` when no such file exists. -/
def Dir.read (dir : Dir) (name : String) : Option FileData :=
  (dir.find? (fun e => e.1 = name)).map Prod.snd

/-- Mirrors `fs::remove_file`: fails with `NotFound` when the file is
absent, otherwise drops its directory entry. -/
def Dir.remove (dir : Dir) (name : String) : Option Dir :=
  if dir.any (fun e => e.1 = name) then
    some (dir.filter (fun e => ¬ e.1 = name))
  else
    none

/-- Characters strictly before the last `.` of the name, or `none` when the
name contains no `.` at all. -/
def stemBeforeLastDot : List Char → Option (List Char)
  | [] => none
  | c :: cs =>
    match stemBeforeLastDot cs with
    | some pre => some (c :: pre)
    | none => if c = '.' then some [] else none

/-- Mirrors `Path::file_stem` on a plain file name: the whole name when it
contains no `.` or when the only text before the last `.` is empty (the
hidden-file rule, under which `".todos"` is its own stem), otherwise the
portion before the last `.`. -/
def fileStem (name : String) : String :=
  match stemBeforeLastDot name.data with
  | none => name
  | some [] => name
  | some pre => ⟨pre⟩

/-- The file name backing a note title: `format!("{}.txt", title)`. -/
def noteFileName (title : String) : String := title ++ ".txt"

/-- The in-memory note store: `struct Notes` of `src/notes.rs`, a vector of
titles. -/
structure Notes where
  items : List String
deriving DecidableEq

/-- Mirrors `Notes::new`: an empty title list. -/
def Notes.new : Notes := ⟨[]⟩

/-- Mirrors `Notes::add`: pushes a title onto the end of `items`. -/
def Notes.add (n : Notes) (note : String) : Notes :=
  ⟨n.items ++ [note]⟩

/-- Mirrors `Notes::create_note_file`: writes `<title>.txt`, creating or
truncating it with no existence check. -/
def Notes.create_note_file (title content : String) (dir : Dir) : Dir :=
  dir.write (noteFileName title) (FileData.text content)

/-- Mirrors `Notes::read_note_file`: opens `<title>.txt` and returns its
full contents; `File::open` on an absent file fails with `NotFound`. -/
def Notes.read_note_file (title : String) (dir : Dir) : Except IoErr String :=
  match dir.read (noteFileName title) with
  | some (FileData.text s) => .ok s
  | some (FileData.json j) => .ok (Json.render j)
  | none => .error .notFound

/-- The function `read_note_file` as a transformer of the world state: the
source performs no write, so the directory component is returned
untouched.  Stated this way so that purity of `read` is a provable
property rather than an artifact of the embedding. -/
def Notes.read_note_file_op (title : String) (dir : Dir) : Except IoErr String × Dir :=
  (Notes.read_note_file title dir, dir)

/-- Mirrors `Notes::update_note_file`: `File::create` plus `write_all`,
exactly as `create_note_file`. -/
def Notes.update_note_file (title new_content : String) (dir : Dir) : Dir :=
  dir.write (noteFileName title) (FileData.text new_content)

/-- Mirrors `Notes::delete_note_file`: `fs::remove_file` on `<title>.txt`,
failing with `NotFound` when the file is absent. -/
def Notes.delete_note_file (title : String) (dir : Dir) : Except IoErr Dir :=
  match dir.remove (noteFileName title) with
  | some dir' => .ok dir'
  | none => .error .notFound

/-- Mirrors `Notes::list_notes`: one entry per regular file of the
directory, the file's stem (Lean strings are always valid UTF-8, so the
`to_str` conversion never drops an entry). -/
def Notes.list_notes (dir : Dir) : List String :=
  dir.map (fun e => fileStem e.1)

/-- Mirrors `Todos::save_to_file`: serializes the whole store and rewrites
the fixed snapshot file `.todos`. -/
def Todos.save_to_file (t : Todos) (dir : Dir) : Dir :=
  dir.write ".todos" (FileData.json t.encode)

/-- Mirrors `Todos::load_from_file`: opens `.todos` (`NotFound` when
absent), then decodes its contents; a snapshot that does not decode is a
decode error.  A raw-text entry under `.todos` stands for bytes that are
not a serde-written document and is likewise undecodable; see the module
comment. -/
def Todos.load_from_file (dir : Dir) : Except IoErr Todos :=
  match dir.read ".todos" with
  | none => .error .notFound
  | some (FileData.text _) => .error .decodeError
  | some (FileData.json j) =>
    match Todos.decode j with
    | some t => .ok t
    | none => .error .decodeError

/-- The application state carried by `TemplateApp` that the core claims
concern: the in-memory note-title list, the in-memory todo store, and the
on-disk `.notes` directory. -/
structure AppState where
  notes : Notes
  todos : Todos
  dir : Dir

/-- Result of running one session-controller operation: either a new state,
or a panic (an `unwrap()` on an `Err`), which aborts the process; the
payload of `panicked` is the in-memory state at the moment of the panic. -/
inductive RunResult where
  | ok (st : AppState)
  | panicked (st : AppState)

/-- Mirrors `TemplateApp::create_note`: appends the title to the in-memory
list, then writes the file (whose `unwrap` cannot fail in this model,
which has no write faults). -/
def TemplateApp.create_note (st : AppState) (title content : String) : AppState :=
  ⟨st.notes.add title, st.todos, Notes.create_note_file title content st.dir⟩

/-- Mirrors `TemplateApp::delete_note`: `retain` drops every occurrence of
the title from the in-memory list, then `delete_note_file(...).unwrap()`
panics when the file delete fails. -/
def TemplateApp.delete_note (st : AppState) (title : String) : RunResult :=
  match Notes.delete_note_file title st.dir with
  | .ok dir' =>
    .ok ⟨⟨st.notes.items.filter (fun note => ¬ note = title)⟩, st.todos, dir'⟩
  | .error _ =>
    .panicked ⟨⟨st.notes.items.filter (fun note => ¬ note = title)⟩, st.todos, st.dir⟩

/-- Mirrors `TemplateApp::create_todo`: appends the record, then saves the
snapshot. -/
def TemplateApp.create_todo (st : AppState) (description : String) (due_date : Option Int) : AppState :=
  let todos' := st.todos.add description due_date
  ⟨st.notes, todos', todos'.save_to_file st.dir⟩

/-- Mirrors `TemplateApp::delete_todo`: when the index is in range, removes
the record at that position and saves the snapshot; otherwise does
nothing. -/
def TemplateApp.delete_todo (st : AppState) (index : Nat) : AppState :=
  if index < st.todos.items.length then
    let todos' : Todos := ⟨st.todos.items.eraseIdx index⟩
    ⟨st.notes, todos', todos'.save_to_file st.dir⟩
  else
    st

/-- Mirrors the todo initialization of `TemplateApp::default`:
`Todos::load_from_file().unwrap_or_default()`, where the derived
`Todos::default` is the empty store. -/
def TemplateApp.defaultTodos (dir : Dir) : Todos :=
  match Todos.load_from_file dir with
  | .ok t => t
  | .error _ => Todos.new

/-! Basic facts about the directory model and the serialization model,
shared by the claim theorems below. -/

theorem Dir.read_write_self (dir : Dir) (name : String) (d : FileData) :
    (Dir.write dir name d).read name = some d := by
  induction dir with
  | nil => simp [Dir.write, Dir.read, List.find?]
  | cons e rest ih =>
    by_cases h : e.1 = name
    · simp [Dir.write, Dir.read, h, List.find?]
    · simp only [Dir.write, h, if_false]
      simpa [Dir.read, List.find?, h] using ih

theorem Dir.self_mem_write (dir : Dir) (name : String) (d : FileData) :
    (name, d) ∈ Dir.write dir name d := by
  induction dir with
  | nil => simp [Dir.write]
  | cons e rest ih =>
    by_cases h : e.1 = name <;> simp [Dir.write, h, ih]

theorem Dir.read_eq_some_mem {dir : Dir} {name : String} {d : FileData}
    (h : dir.read name = some d) : (name, d) ∈ dir := by
  unfold Dir.read at h
  cases hf : dir.find? (fun e => e.1 = name) with
  | none => rw [hf] at h; exact absurd h (by simp)
  | some e =>
    rw [hf] at h
    have hp := List.find?_some hf
    have hm := List.mem_of_find?_eq_some hf
    obtain ⟨n, c⟩ := e
    simp only [decide_eq_true_eq] at hp
    have hc : c = d := by simpa using h
    rw [← hp, ← hc]
    exact hm

theorem Dir.remove_eq_filter {dir dir' : Dir} {name : String}
    (h : Dir.remove dir name = some dir') :
    dir' = dir.filter (fun e => ¬ e.1 = name) := by
  unfold Dir.remove at h
  split at h
  · exact (Option.some.inj h).symm
  · exact absurd h (by simp)

theorem Dir.read_remove_self {dir dir' : Dir} {name : String}
    (h : Dir.remove dir name = some dir') : dir'.read name = none := by
  rw [Dir.remove_eq_filter h]
  unfold Dir.read
  rw [List.find?_eq_none.mpr]
  · rfl
  · intro e he hpe
    have hmem := (List.mem_filter.mp he).2
    simp only [decide_eq_true_eq] at hmem hpe
    exact hmem hpe

theorem stemBeforeLastDot_append_txt (l : List Char) :
    stemBeforeLastDot (l ++ ('.' :: ['t', 'x', 't'])) = some l := by
  induction l with
  | nil => rfl
  | cons c cs ih => simp [stemBeforeLastDot, ih]

theorem fileStem_of_stem_cons {name : String} {c : Char} {cs : List Char}
    (h : stemBeforeLastDot name.data = some (c :: cs)) : fileStem name = ⟨c :: cs⟩ := by
  unfold fileStem
  rw [h]

theorem fileStem_noteFileName (t : String) (h : t ≠ "") :
    fileStem (noteFileName t) = t := by
  obtain ⟨l⟩ := t
  have hl : l ≠ [] := fun he => h (by rw [he])
  have hdata : (noteFileName ⟨l⟩).data = l ++ ('.' :: ['t', 'x', 't']) := rfl
  cases l with
  | nil => exact absurd rfl hl
  | cons c cs =>
    rw [fileStem_of_stem_cons]
    rw [hdata]
    exact stemBeforeLastDot_append_txt (c :: cs)

theorem fileStem_dotTodos : fileStem ".todos" = ".todos" := rfl

theorem Todo.decode_encode_record (td : Todo) : Todo.decode td.encode = some td := by
  obtain ⟨s, d⟩ := td
  cases d <;> rfl

theorem decodeTodoList_map_encode (items : List Todo) :
    decodeTodoList (items.map Todo.encode) = some items := by
  induction items with
  | nil => rfl
  | cons td tds ih => simp [decodeTodoList, Todo.decode_encode_record, ih]

theorem Todos.decode_encode_store (t : Todos) : Todos.decode t.encode = some t := by
  obtain ⟨items⟩ := t
  have h : Todos.decode (Todos.encode ⟨items⟩)
      = match decodeTodoList (items.map Todo.encode) with
        | some is => some ⟨is⟩
        | none => none := rfl
  rw [h, decodeTodoList_map_encode]

theorem Todos.load_save (t : Todos) (dir : Dir) :
    Todos.load_from_file (Todos.save_to_file t dir) = .ok t := by
  unfold Todos.load_from_file Todos.save_to_file
  rw [Dir.read_write_self]
  show (match Todos.decode t.encode with
        | some t' => Except.ok t'
        | none => Except.error IoErr.decodeError) = Except.ok t
  rw [Todos.decode_encode_store]

theorem Dir.remove_eq_none_of_read_none {dir : Dir} {name : String}
    (h : dir.read name = none) : dir.remove name = none := by
  unfold Dir.read at h
  have hf : dir.find? (fun e => e.1 = name) = none := by
    cases hf : dir.find? (fun e => e.1 = name) with
    | none => rfl
    | some e => rw [hf] at h; exact absurd h (by simp)
  unfold Dir.remove
  rw [if_neg]
  intro hany
  rw [List.any_eq_true] at hany
  obtain ⟨e, he, hpe⟩ := hany
  exact absurd hpe (by simpa using List.find?_eq_none.mp hf e he)

theorem Notes.read_update (title c : String) (dir : Dir) :
    Notes.read_note_file title (Notes.update_note_file title c dir) = Except.ok c := by
  unfold Notes.read_note_file Notes.update_note_file
  rw [Dir.read_write_self]

/-! Claim theorems. -/

/-- C1: for every todo sequence built in memory via repeated
`add(description, due_date)`, a successful `save` followed by `load`
yields a sequence equal in content and order to the pre-save sequence:
each item's description and optional due date round-trip exactly through
the JSON snapshot encoding. -/
theorem claim_C1_roundtrip (adds : List (String × Option Int)) (dir : Dir) :
    Todos.load_from_file
        (Todos.save_to_file (adds.foldl (fun t p => t.add p.1 p.2) Todos.new) dir)
      = Except.ok (adds.foldl (fun t p => t.add p.1 p.2) Todos.new) :=
  Todos.load_save _ dir

/-- C7: the note store's update and create operations are behaviorally
equivalent (create-or-replace): `update_note_file` performs exactly the
same filesystem effect as `create_note_file`, in particular silently
creating the file when it is absent rather than failing. -/
theorem claim_C7_update_eq_create (title content : String) (dir : Dir) :
    Notes.update_note_file title content dir = Notes.create_note_file title content dir ∧
    (dir.read (noteFileName title) = none →
      (Notes.update_note_file title content dir).read (noteFileName title)
        = some (FileData.text content)) := by
  refine ⟨rfl, fun _ => ?_⟩
  unfold Notes.update_note_file
  exact Dir.read_write_self dir (noteFileName title) (FileData.text content)

/-- Witness for C7 at title `"a"`, content `"x"` and the empty directory,
where the file is indeed absent. -/
theorem claim_C7_witness :
    Notes.update_note_file "a" "x" [] = Notes.create_note_file "a" "x" [] ∧
    (Notes.update_note_file "a" "x" ([] : Dir)).read (noteFileName "a")
      = some (FileData.text "x") :=
  ⟨(claim_C7_update_eq_create "a" "x" []).1,
   (claim_C7_update_eq_create "a" "x" []).2 rfl⟩

/-- C8: `update(title, new_content)` overwrites the file's full contents,
so a subsequent `read(title)` returns exactly the new content; in
particular creating `"Shopping"` with `"eggs"` and updating it to
`"eggs, milk"` makes `read("Shopping")` return `"eggs, milk"`. -/
theorem claim_C8_update_overwrites (title content new_content : String) (dir : Dir) :
    Notes.read_note_file title
        (Notes.update_note_file title new_content (Notes.create_note_file title content dir))
      = Except.ok new_content ∧
    Notes.read_note_file "Shopping"
        (Notes.update_note_file "Shopping" "eggs, milk"
          (Notes.create_note_file "Shopping" "eggs" dir))
      = Except.ok "eggs, milk" :=
  ⟨Notes.read_update title new_content _, Notes.read_update "Shopping" "eggs, milk" _⟩

/-- C9: `read(title)` is a pure, deterministic function of the on-disk
state: it does not modify the directory, and a second read through the
state produced by the first returns identical content. -/
theorem claim_C9_read_idempotent (title : String) (dir : Dir) :
    (Notes.read_note_file_op title dir).2 = dir ∧
    (Notes.read_note_file_op title ((Notes.read_note_file_op title dir).2)).1
      = (Notes.read_note_file_op title dir).1 :=
  ⟨rfl, rfl⟩

/-- C10: whenever the snapshot file `.todos` exists — in particular right
after any successful todo save — `list_notes` includes the string
`".todos"` as a note title, because the listing emits one title per
regular file with no filtering by extension and the file stem of the
hidden name `".todos"` is `".todos"` itself. -/
theorem claim_C10_todos_listed (dir : Dir) (t : Todos) :
    ".todos" ∈ Notes.list_notes (Todos.save_to_file t dir) ∧
    (∀ d, dir.read ".todos" = some d → ".todos" ∈ Notes.list_notes dir) := by
  constructor
  · unfold Notes.list_notes Todos.save_to_file
    exact List.mem_map.mpr ⟨(".todos", FileData.json t.encode),
      Dir.self_mem_write dir ".todos" (FileData.json t.encode), fileStem_dotTodos⟩
  · intro d hd
    unfold Notes.list_notes
    exact List.mem_map.mpr ⟨(".todos", d), Dir.read_eq_some_mem hd, fileStem_dotTodos⟩

/-- Witness for C10 at a one-file directory holding only the snapshot. -/
theorem claim_C10_witness :
    ".todos" ∈ Notes.list_notes ([(".todos", FileData.json Json.null)] : Dir) :=
  (claim_C10_todos_listed [(".todos", FileData.json Json.null)] Todos.new).2
    (FileData.json Json.null) rfl

/-- C2 counterexample: on the empty directory — the snapshot file does not
exist — the todo store's `load_from_file` returns a `NotFound` error, not
an empty store. -/
theorem claim_C2_counterexample :
    Todos.load_from_file ([] : Dir) = Except.error IoErr.notFound := rfl

/-- C2 amended: on a missing snapshot file, `Todos::load_from_file` itself
returns a `NotFound` error; it is the application's load site
(`TemplateApp::default` with `unwrap_or_default`) that turns this into an
empty store — and it likewise turns a malformed (undecodable) snapshot
into an empty store instead of surfacing the decode error. -/
theorem claim_C2_amended (dir : Dir) :
    (dir.read ".todos" = none →
      Todos.load_from_file dir = Except.error IoErr.notFound ∧
      TemplateApp.defaultTodos dir = Todos.new) ∧
    TemplateApp.defaultTodos (Dir.write dir ".todos" (FileData.json Json.null)) = Todos.new := by
  constructor
  · intro h
    have hload : Todos.load_from_file dir = Except.error IoErr.notFound := by
      unfold Todos.load_from_file
      rw [h]
    exact ⟨hload, by unfold TemplateApp.defaultTodos; rw [hload]⟩
  · unfold TemplateApp.defaultTodos Todos.load_from_file
    rw [Dir.read_write_self]
    rfl

/-- Witness for C2 at the empty directory, whose snapshot file is absent. -/
theorem claim_C2_witness :
    Todos.load_from_file ([] : Dir) = Except.error IoErr.notFound ∧
    TemplateApp.defaultTodos ([] : Dir) = Todos.new :=
  (claim_C2_amended []).1 rfl

/-- C3 counterexample: deleting the note `"Foo"` when its file is absent —
a filesystem error on the delete — panics (the process crashes on the
`unwrap`), and at the moment of the panic the in-memory title list has
already dropped `"Foo"`: the prior in-memory state is not left
unchanged. -/
theorem claim_C3_counterexample :
    TemplateApp.delete_note ⟨⟨["Foo"]⟩, Todos.new, []⟩ "Foo"
      = RunResult.panicked ⟨⟨[]⟩, Todos.new, []⟩ ∧ ([] : List String) ≠ ["Foo"] :=
  ⟨rfl, by simp⟩

/-- C3 amended: when a note-file delete fails with a filesystem error (the
backing file is absent), the operation panics — crashing the application —
and the in-memory title list at the moment of the panic has already had
every occurrence of the title removed, disagreeing with the unchanged
disk state; `create_note` likewise appends the title to the in-memory
list before attempting the file write. -/
theorem claim_C3_amended (st : AppState) (title : String)
    (h : st.dir.read (noteFileName title) = none) :
    TemplateApp.delete_note st title
      = RunResult.panicked
          ⟨⟨st.notes.items.filter (fun note => ¬ note = title)⟩, st.todos, st.dir⟩ := by
  have hrem := Dir.remove_eq_none_of_read_none h
  unfold TemplateApp.delete_note Notes.delete_note_file
  rw [hrem]

/-- Witness for C3 at a state whose list holds `"Foo"` twice but whose
directory is empty, so the delete's `fs::remove_file` fails. -/
theorem claim_C3_witness :
    TemplateApp.delete_note ⟨⟨["Foo", "Bar", "Foo"]⟩, Todos.new, []⟩ "Foo"
      = RunResult.panicked ⟨⟨["Bar"]⟩, Todos.new, []⟩ :=
  claim_C3_amended ⟨⟨["Foo", "Bar", "Foo"]⟩, Todos.new, []⟩ "Foo" rfl

/-- C4: `delete_todo(index)` with an out-of-range index leaves the whole
state — in-memory sequence and on-disk snapshot — unchanged and returns
without error, while an in-range index removes exactly the record at that
ordinal position, preserving the order of all other records. -/
theorem claim_C4_remove_semantics (st : AppState) (index : Nat) :
    (st.todos.items.length ≤ index → TemplateApp.delete_todo st index = st) ∧
    (index < st.todos.items.length →
      (TemplateApp.delete_todo st index).todos.items
        = st.todos.items.take index ++ st.todos.items.drop (index + 1)) := by
  constructor
  · intro h
    unfold TemplateApp.delete_todo
    rw [if_neg (Nat.not_lt.mpr h)]
  · intro h
    unfold TemplateApp.delete_todo
    rw [if_pos h]
    exact List.eraseIdx_eq_take_drop_succ _ _

/-- Witness for C4 on a two-element store: index `7` is a no-op, index `0`
removes the first record and keeps the second. -/
theorem claim_C4_witness :
    TemplateApp.delete_todo ⟨Notes.new, ⟨[⟨"a", none⟩, ⟨"b", some 5⟩]⟩, []⟩ 7
        = ⟨Notes.new, ⟨[⟨"a", none⟩, ⟨"b", some 5⟩]⟩, []⟩ ∧
    (TemplateApp.delete_todo ⟨Notes.new, ⟨[⟨"a", none⟩, ⟨"b", some 5⟩]⟩, []⟩ 0).todos.items
        = [⟨"b", some 5⟩] :=
  ⟨(claim_C4_remove_semantics ⟨Notes.new, ⟨[⟨"a", none⟩, ⟨"b", some 5⟩]⟩, []⟩ 7).1 (by decide),
   (claim_C4_remove_semantics ⟨Notes.new, ⟨[⟨"a", none⟩, ⟨"b", some 5⟩]⟩, []⟩ 0).2 (by decide)⟩

/-- C5 counterexample: with the snapshot file `.todos` present alongside
the note file `.todos.txt`, `delete_note(".todos")` succeeds, yet
`list_notes` still contains `".todos"`, because the remaining snapshot
file's stem is `".todos"` itself. -/
theorem claim_C5_counterexample :
    TemplateApp.delete_note
        ⟨⟨[".todos"]⟩, Todos.new,
          [(".todos", FileData.json (Json.obj [("items", Json.arr [])])),
           (".todos.txt", FileData.text "x")]⟩ ".todos"
      = RunResult.ok ⟨⟨[]⟩, Todos.new,
          [(".todos", FileData.json (Json.obj [("items", Json.arr [])]))]⟩ ∧
    ".todos" ∈ Notes.list_notes
        [(".todos", FileData.json (Json.obj [("items", Json.arr [])]))] :=
  ⟨rfl, by simp [Notes.list_notes, fileStem_dotTodos]⟩

/-- C5 amended: after `delete_note(title)` succeeds, `read(title)` fails
with `NotFound` and every occurrence of the title — duplicates included —
is gone from the in-memory title list; `list_notes` no longer contains
the title provided no other remaining file's stem equals it (for
directories of the application's shape — `<u>.txt` files with nonempty
`u` plus the snapshot `.todos` — the only exception is title
`".todos"`). -/
theorem claim_C5_amended (st : AppState) (title : String) (st' : AppState)
    (h : TemplateApp.delete_note st title = RunResult.ok st') :
    Notes.read_note_file title st'.dir = Except.error IoErr.notFound ∧
    title ∉ st'.notes.items ∧
    ((∀ e ∈ st'.dir, e.1 = ".todos" ∨ ∃ u, ¬ u = "" ∧ e.1 = noteFileName u) →
      ¬ title = ".todos" → title ∉ Notes.list_notes st'.dir) := by
  unfold TemplateApp.delete_note Notes.delete_note_file at h
  cases hrem : st.dir.remove (noteFileName title) with
  | none => rw [hrem] at h; exact absurd h (by simp)
  | some dir' =>
    rw [hrem] at h
    injection h with h
    subst h
    refine ⟨?_, ?_, ?_⟩
    · unfold Notes.read_note_file
      rw [Dir.read_remove_self hrem]
    · intro hmem
      have := (List.mem_filter.mp hmem).2
      simp at this
    · intro hshape hne hmem
      obtain ⟨e, he, hstem⟩ := List.mem_map.mp hmem
      rcases hshape e he with htd | ⟨u, hu, hname⟩
      · rw [htd] at hstem
        exact hne (hstem ▸ fileStem_dotTodos.symm ▸ rfl)
      · rw [hname] at hstem
        rw [fileStem_noteFileName u hu] at hstem
        have hefil : e ∈ st.dir.filter (fun e => ¬ e.1 = noteFileName title) := by
          rw [← Dir.remove_eq_filter hrem]; exact he
        have hne' := (List.mem_filter.mp hefil).2
        simp only [decide_eq_true_eq] at hne'
        rw [hname, hstem] at hne'
        exact hne' rfl

/-- Witness for C5: deleting `"Foo"` from a state whose directory holds
only `Foo.txt` succeeds, after which the read fails, the list is empty
and the listing does not contain `"Foo"`. -/
theorem claim_C5_witness :
    Notes.read_note_file "Foo" ([] : Dir) = Except.error IoErr.notFound ∧
    "Foo" ∉ (Notes.mk []).items ∧
    "Foo" ∉ Notes.list_notes ([] : Dir) :=
  ⟨(claim_C5_amended ⟨⟨["Foo"]⟩, Todos.new, [(noteFileName "Foo", FileData.text "bar")]⟩
      "Foo" ⟨⟨[]⟩, Todos.new, []⟩ rfl).1,
   (claim_C5_amended ⟨⟨["Foo"]⟩, Todos.new, [(noteFileName "Foo", FileData.text "bar")]⟩
      "Foo" ⟨⟨[]⟩, Todos.new, []⟩ rfl).2.1,
   (claim_C5_amended ⟨⟨["Foo"]⟩, Todos.new, [(noteFileName "Foo", FileData.text "bar")]⟩
      "Foo" ⟨⟨[]⟩, Todos.new, []⟩ rfl).2.2 (by simp) (by decide)⟩

/-- C6 counterexample: for the empty title, `create_note_file("", "bar")`
writes the file `.txt`, whose stem under the hidden-file rule is `".txt"`,
so the listing afterwards is `[".txt"]` and does not contain `""`. -/
theorem claim_C6_counterexample :
    "" ∉ Notes.list_notes (Notes.create_note_file "" "bar" []) ∧
    Notes.list_notes (Notes.create_note_file "" "bar" []) = [".txt"] :=
  ⟨by decide, rfl⟩

/-- C6 amended: for every nonempty title, after `create_note(title,
content)` the listing contains the title at least once; and the title is
appended to the in-memory list unconditionally — no existence check,
last-write-wins on the file — so repeated creates yield duplicate list
entries. -/
theorem claim_C6_amended (st : AppState) (title content : String) (h : ¬ title = "") :
    title ∈ Notes.list_notes (TemplateApp.create_note st title content).dir ∧
    (TemplateApp.create_note st title content).notes.items = st.notes.items ++ [title] := by
  constructor
  · show title ∈ Notes.list_notes (Notes.create_note_file title content st.dir)
    unfold Notes.list_notes Notes.create_note_file
    exact List.mem_map.mpr ⟨(noteFileName title, FileData.text content),
      Dir.self_mem_write st.dir (noteFileName title) (FileData.text content),
      fileStem_noteFileName title h⟩
  · rfl

/-- Witness for C6 at title `"Foo"`, content `"bar"` and the empty state. -/
theorem claim_C6_witness :
    "Foo" ∈ Notes.list_notes (TemplateApp.create_note ⟨Notes.new, Todos.new, []⟩ "Foo" "bar").dir ∧
    (TemplateApp.create_note ⟨Notes.new, Todos.new, []⟩ "Foo" "bar").notes.items
      = [] ++ ["Foo"] :=
  claim_C6_amended ⟨Notes.new, Todos.new, []⟩ "Foo" "bar" (by decide)
